import Mathlib

/-!
Verification of the EfficientAd lightning module
(`src/anomalib/models/image/efficient_ad/lightning_model.py`).

Shallow embedding conventions:
* tensors are lists of exact rationals (`ℚ`); floating-point rounding is not
  modelled, arithmetic is exact;
* a teacher activation batch of shape (batch, channels, height, width) is a
  list of per-channel pixel lists (the batch/height/width axes flattened,
  which is all the code ever reduces over);
* `torch.sqrt` applied to a scalar is represented symbolically: `nan` for a
  negative radicand (torch yields NaN there) and `sqrtOf x` for the
  non-negative square root of `x ≥ 0`;
* a Python exception is an `Option`/`Except` `none`/`error` result.
-/

namespace EfficientAd

/-- Result of `torch.sqrt` on one scalar: `nan` when the radicand is
negative, otherwise `sqrtOf x`, denoting the non-negative real square root
of `x`. -/
inductive SqrtResult where
  | nan : SqrtResult
  | sqrtOf (x : ℚ) : SqrtResult
deriving DecidableEq, Repr

/-- Embeds `torch.sqrt` on a scalar: NaN on a negative input, otherwise the
square root. -/
def torchSqrt (x : ℚ) : SqrtResult :=
  if x < 0 then SqrtResult.nan else SqrtResult.sqrtOf x

/-- A 4-d tensor: its shape and its flattened data. -/
structure Tensor4 (α : Type) where
  shape : ℕ × ℕ × ℕ × ℕ
  data : List α
deriving DecidableEq, Repr

/-- One batch of teacher activations, shape (batch, channels, height, width):
`channels[c]` is the list of all pixels of channel `c` (batch, height and
width axes flattened together). -/
structure Activation where
  channels : List (List ℚ)
deriving DecidableEq, Repr

/-- Embeds `y[:, 0].numel()`: the number of pixels of channel 0 of the batch
(`batch * height * width`). -/
def numel0 (y : Activation) : ℕ := (y.channels.headD []).length

/-- The running accumulators of `teacher_channel_mean_std`: per-channel
element count `n` (int64), per-channel sum and per-channel sum of squares
(both float64, exact here). -/
structure ChanAcc where
  n : List ℕ
  chanel_sum : List ℚ
  chanel_sum_sqr : List ℚ
deriving DecidableEq, Repr

/-- The zero accumulators allocated on the first batch
(`torch.zeros((num_channels,))` three times). -/
def initAcc (numChannels : ℕ) : ChanAcc :=
  ⟨List.replicate numChannels 0, List.replicate numChannels 0,
    List.replicate numChannels 0⟩

/-- The loop body of `teacher_channel_mean_std`:
`n += y[:, 0].numel(); chanel_sum += torch.sum(y, dim=[0, 2, 3]);
chanel_sum_sqr += torch.sum(y**2, dim=[0, 2, 3])`. -/
def updateAcc (acc : ChanAcc) (y : Activation) : ChanAcc :=
  { n := acc.n.map (fun k => k + numel0 y),
    chanel_sum :=
      List.zipWith (fun a b => a + b) acc.chanel_sum
        (y.channels.map List.sum),
    chanel_sum_sqr :=
      List.zipWith (fun a b => a + b) acc.chanel_sum_sqr
        (y.channels.map (fun c => (c.map (fun x => x ^ 2)).sum)) }

/-- The accumulation loop with its lazy initialization: the accumulators are
allocated (`arrays_defined`) from the channel count of the first batch; for
the empty loop they stay `None`. -/
def foldAcc (batches : List Activation) : Option ChanAcc :=
  batches.foldl
    (fun acc y =>
      match acc with
      | none => some (updateAcc (initAcc y.channels.length) y)
      | some a => some (updateAcc a y))
    none

/-- Lines 184-186 of the source: `channel_mean = chanel_sum / n` and
`channel_std = sqrt(chanel_sum_sqr / n - channel_mean**2)` — no clamping of
the radicand happens before the square root. -/
def finalize_std (chanel_sum_sqr : List ℚ) (n : List ℕ)
    (channel_mean : List ℚ) : List SqrtResult :=
  (List.zipWith (fun p m => p.1 / (p.2 : ℚ) - m ^ 2)
      (chanel_sum_sqr.zip n) channel_mean).map torchSqrt

/-- The value returned by `teacher_channel_mean_std`: the per-channel mean
and std tensors, reshaped to `[None, :, None, None]`. -/
structure TeacherStats where
  mean : Tensor4 ℚ
  std : Tensor4 SqrtResult
deriving DecidableEq, Repr

/-- Embeds `teacher_channel_mean_std`: stream over the batches accumulating count,
sum and sum of squares per channel; `assert n is not None` fails (here:
`none`) on an empty sequence; otherwise return
`{"mean": channel_mean[None, :, None, None], "std": channel_std[None, :, None, None]}`. -/
def teacher_channel_mean_std (batches : List Activation) :
    Option TeacherStats :=
  match foldAcc batches with
  | none => none
  | some a =>
    let channel_mean : List ℚ :=
      List.zipWith (fun (s : ℚ) (k : ℕ) => s / (k : ℚ)) a.chanel_sum a.n
    let channel_std : List SqrtResult :=
      finalize_std a.chanel_sum_sqr a.n channel_mean
    some
      { mean := ⟨(1, channel_mean.length, 1, 1), channel_mean⟩,
        std := ⟨(1, channel_std.length, 1, 1), channel_std⟩ }

/-- All pixels of channel `c` across all batches, in stream order. -/
def channelPixels (batches : List Activation) (c : ℕ) : List ℚ :=
  (batches.map (fun b => b.channels.getD c [])).flatten

/-- Total per-channel pixel count over all batches, as the code accumulates
it (channel-0 `numel` of every batch). -/
def totalCount (batches : List Activation) : ℕ :=
  (batches.map numel0).sum

/-- Exact population mean of a list of values. -/
def popMean (xs : List ℚ) : ℚ := xs.sum / (xs.length : ℚ)

/-- Exact population variance of a list of values (mean of squared
deviations from the population mean). -/
def popVar (xs : List ℚ) : ℚ :=
  ((xs.map (fun x => (x - popMean xs) ^ 2)).sum) / (xs.length : ℚ)

/-! ### Quantile calibration (`map_norm_quantiles`, `_get_quantiles_of_maps`) -/

/-- The fixed subsampling ceiling of `reduce_tensor_elems` (design value
16,777,216 = 2^24 elements). -/
def subsampleCeiling : ℕ := 16777216

/-- Embeds `torch.quantile(input, q)` on a flat tensor, with the default linear
interpolation between order statistics; torch raises on an empty input
(`none` here). -/
def torchQuantile (q : ℚ) (xs : List ℚ) : Option ℚ :=
  match xs with
  | [] => none
  | _ =>
    let s := xs.mergeSort (fun a b => a ≤ b)
    let pos : ℚ := q * ((xs.length : ℚ) - 1)
    let i : ℕ := (⌊pos⌋).toNat
    let lo := s.getD i 0
    let hi := s.getD (i + 1) lo
    some (lo + (pos - (i : ℚ)) * (hi - lo))

/-- Modelled from the spec: `reduce_tensor_elems` (defined in
`torch_model.py`, which is not among the sources). Per the spec it flattens
its input and, if the total element count exceeds the fixed ceiling of
16,777,216, takes a uniformly random subsample of exactly the ceiling size
drawn from a seedable source; otherwise it returns every element. The
seedable random source is the parameter `pick`: for an element count `len`
it yields the randomly chosen order of the indices `0, ..., len - 1`, of
which the first `subsampleCeiling` select the subsample. -/
def reduce_tensor_elems (pick : ℕ → List ℕ) (xs : List ℚ) : List ℚ :=
  if subsampleCeiling < xs.length then
    ((pick xs.length).take subsampleCeiling).map (fun i => xs.getD i 0)
  else
    xs

/-- Embeds `_get_quantiles_of_maps`: `torch.cat` of an empty list of maps raises
(`none`); otherwise the concatenated maps are flattened, possibly
subsampled by `reduce_tensor_elems`, and the 0.90 and 0.995 quantiles are
returned. -/
def get_quantiles_of_maps (pick : ℕ → List ℕ) (maps : List (List ℚ)) :
    Option (ℚ × ℚ) :=
  match maps with
  | [] => none
  | _ =>
    let maps_flat := reduce_tensor_elems pick maps.flatten
    match torchQuantile (9 / 10) maps_flat,
        torchQuantile (199 / 200) maps_flat with
    | some qa, some qb => some (qa, qb)
    | _, _ => none

/-- The value returned by `map_norm_quantiles`:
`{"qa_st": _, "qa_ae": _, "qb_st": _, "qb_ae": _}`. -/
structure QuantileResults where
  qa_st : ℚ
  qa_ae : ℚ
  qb_st : ℚ
  qb_ae : ℚ
deriving DecidableEq, Repr

/-- Embeds `map_norm_quantiles`: iterate the validation dataloader; for every
sample with `label == 0` ("only use good images of the validation set")
run the model and collect `map_st` and `map_ae`; then compute the two
quantiles of each collection. A validation batch is a list of
(label, image) pairs; `model img = (map_st, map_ae)` is the forward pass
with `normalize=False`, its two maps already flattened. -/
def map_norm_quantiles {ι : Type} (pick : ℕ → List ℕ)
    (model : ι → List ℚ × List ℚ) (batches : List (List (ℤ × ι))) :
    Option QuantileResults :=
  let goods := batches.flatten.filter (fun p => p.1 == 0)
  let maps_st := goods.map (fun p => (model p.2).1)
  let maps_ae := goods.map (fun p => (model p.2).2)
  match get_quantiles_of_maps pick maps_st,
      get_quantiles_of_maps pick maps_ae with
  | some (qa_st, qb_st), some (qa_ae, qb_ae) =>
    some ⟨qa_st, qa_ae, qb_st, qb_ae⟩
  | _, _ => none

/-! ### Optimizer and scheduler (`configure_optimizers`) -/

/-- The Adam optimizer configuration over the student and autoencoder
parameters: learning rate and weight decay. -/
structure OptimizerConfig where
  lr : ℚ
  weight_decay : ℚ
deriving DecidableEq, Repr

/-- The `StepLR` scheduler configuration: the learning rate is multiplied
by `gamma` every `step_size` steps. -/
structure SchedulerConfig where
  step_size : ℤ
  gamma : ℚ
deriving DecidableEq, Repr

/-- Python `int()` applied to a rational: truncation toward zero. -/
def pyInt (q : ℚ) : ℤ := if 0 ≤ q then ⌊q⌋ else -⌊-q⌋

/-- Embeds `configure_optimizers`: raise a `ValueError` when neither `max_epochs`
nor `max_steps` is finite (negative values are the "unset" sentinel);
otherwise derive `num_steps` from whichever budgets are set and return the
optimizer together with a `StepLR` schedule of
`step_size = int(0.95 * num_steps)` and `gamma = 0.1`. -/
def configure_optimizers (lr weight_decay : ℚ) (max_epochs max_steps : ℤ)
    (steps_per_epoch : ℕ) : Except String (OptimizerConfig × SchedulerConfig) :=
  if max_epochs < 0 ∧ max_steps < 0 then
    Except.error "A finite number of steps or epochs must be defined"
  else
    let num_steps : ℤ :=
      if max_epochs < 0 then max_steps
      else if max_steps < 0 then max_epochs * (steps_per_epoch : ℤ)
      else min max_steps (max_epochs * (steps_per_epoch : ℤ))
    Except.ok (⟨lr, weight_decay⟩, ⟨pyInt ((95 / 100 : ℚ) * (num_steps : ℚ)), 1 / 10⟩)

/-! ### Normalization state and lifecycle hooks -/

/-- Modelled from the spec: the model-owned normalization state (the
`mean_std` and `quantiles` containers live in `torch_model.py`, which is
not among the sources). Per the spec it holds the channel mean/std tensors
and the four quantile scalars, each either set or unset. -/
structure NormalizationState where
  channel_mean : Option (Tensor4 ℚ)
  channel_std : Option (Tensor4 SqrtResult)
  qa_st : Option ℚ
  qb_st : Option ℚ
  qa_ae : Option ℚ
  qb_ae : Option ℚ
deriving DecidableEq, Repr

/-- Modelled from the spec: `self.model.is_set(self.model.mean_std)` (the
`is_set` helper lives in `torch_model.py`, which is not among the
sources) — the explicit "is calibrated" predicate on the mean/std group. -/
def is_set_mean_std (s : NormalizationState) : Bool :=
  s.channel_mean.isSome && s.channel_std.isSome

/-- Embeds `on_train_start`: if the mean/std group is not set, run
`teacher_channel_mean_std` (represented by its would-be result `stats`) and
write both fields; otherwise do nothing. The returned flag records whether
the channel-statistics computation ran. -/
def on_train_start (stats : TeacherStats) (s : NormalizationState) :
    NormalizationState × Bool :=
  if is_set_mean_std s then (s, false)
  else
    ({ s with channel_mean := some stats.mean, channel_std := some stats.std },
      true)

/-- Embeds `on_validation_start`: unconditionally run `map_norm_quantiles`
(represented by its would-be result `q`) and overwrite all four quantile
fields. The returned flag records whether the quantile computation ran
(it always does). -/
def on_validation_start (q : QuantileResults) (s : NormalizationState) :
    NormalizationState × Bool :=
  ({ s with
      qa_st := some q.qa_st
      qb_st := some q.qb_st
      qa_ae := some q.qa_ae
      qb_ae := some q.qb_ae },
    true)

/-- The mean/std fields of the state are set or unset together. -/
def meanStdTogether (s : NormalizationState) : Prop :=
  s.channel_mean.isSome = s.channel_std.isSome

/-- The four quantile fields of the state are set or unset together. -/
def quantilesTogether (s : NormalizationState) : Prop :=
  s.qa_st.isSome = s.qb_st.isSome ∧ s.qa_st.isSome = s.qa_ae.isSome ∧
    s.qa_st.isSome = s.qb_ae.isSome

/-- All six fields of the state are set, or all six are unset. -/
def allOrNothing (s : NormalizationState) : Prop :=
  (s.channel_mean.isSome ∧ s.channel_std.isSome ∧ s.qa_st.isSome ∧
      s.qb_st.isSome ∧ s.qa_ae.isSome ∧ s.qb_ae.isSome) ∨
    (s.channel_mean = none ∧ s.channel_std = none ∧ s.qa_st = none ∧
      s.qb_st = none ∧ s.qa_ae = none ∧ s.qb_ae = none)

/-! ### The auxiliary (ImageNet) data cycler of `training_step` -/

/-- The auxiliary-data state of the module: the finite ImageNet dataset
behind `imagenet_loader` (batch size 1: each element is one batch) and the
batches `imagenet_iterator` has not yielded yet. -/
structure AuxCycler (β : Type) where
  dataset : List β
  iterator : List β
deriving DecidableEq, Repr

/-- Lines 284-289 of the source: `next(self.imagenet_iterator)`; on
`StopIteration` rebuild `iter(self.imagenet_loader)` — which reshuffles,
modelled by `shuffle` — and return its first batch. A second
`StopIteration` (only possible for an empty dataset) propagates (`none`). -/
def nextBatch {β : Type} (shuffle : List β → List β) (c : AuxCycler β) :
    Option (β × AuxCycler β) :=
  match c.iterator with
  | b :: rest => some (b, ⟨c.dataset, rest⟩)
  | [] =>
    match shuffle c.dataset with
    | b :: rest => some (b, ⟨c.dataset, rest⟩)
    | [] => none

/-- The auxiliary batch obtained by the `(k+1)`-th call to `training_step`
starting from cycler state `c` (`none` once any call failed). -/
def runCycler {β : Type} (shuffle : List β → List β) (c : AuxCycler β) :
    ℕ → Option (β × AuxCycler β)
  | 0 => nextBatch shuffle c
  | k + 1 =>
    match nextBatch shuffle c with
    | some (_, c2) => runCycler shuffle c2 k
    | none => none

/-! ### Theorems -/

/-- Claim C3: on the empty batch sequence `teacher_channel_mean_std` fails
(the `assert n is not None` contract check fires, modelled by `none`) and
never returns a result. -/
theorem claim_C3_empty_sequence_raises : teacher_channel_mean_std [] = none :=
  rfl

/-- Counterexample to claim C2: the std finalization of
`teacher_channel_mean_std` applies no clamp before the square root — on an
accumulator state whose variance value `chanel_sum_sqr / n - mean^2` is
negative (`0 / 1 - 1^2 = -1` here) the returned std entry is NaN, not the
clamped `sqrtOf 0`. -/
theorem claim_C2_counterexample :
    finalize_std [0] [1] [1] = [SqrtResult.nan] ∧
      SqrtResult.nan ≠ SqrtResult.sqrtOf 0 := by
  constructor
  · norm_num [finalize_std, torchSqrt]
  · intro h
    exact SqrtResult.noConfusion h

/-- Claim C2 as amended: no clamp is applied before the square root in
`teacher_channel_mean_std`; whenever the variance value
`chanel_sum_sqr / n - mean^2` fed to the square root is negative (possible
only through floating-point error), the returned std contains NaN rather
than a clamped zero. -/
theorem claim_C2_amended (sq m : ℚ) (k : ℕ)
    (h : sq / (k : ℚ) - m ^ 2 < 0) :
    finalize_std [sq] [k] [m] = [SqrtResult.nan] := by
  have hx : torchSqrt (sq / (k : ℚ) - m ^ 2) = SqrtResult.nan := by
    unfold torchSqrt
    exact if_pos h
  simp [finalize_std, hx]

/-- Witness for the amended claim C2 at the concrete accumulator state
`chanel_sum_sqr = 1, n = 2, mean = 1`. -/
theorem claim_C2_amended_witness :
    (1 : ℚ) / ((2 : ℕ) : ℚ) - (1 : ℚ) ^ 2 < 0 ∧
      finalize_std [1] [2] [1] = [SqrtResult.nan] := by
  have h : (1 : ℚ) / ((2 : ℕ) : ℚ) - (1 : ℚ) ^ 2 < 0 := by norm_num
  exact ⟨h, claim_C2_amended 1 1 2 h⟩

/-- Claim C7: `configure_optimizers` derives the training horizon by case
analysis on the budgets (negative = unset): both unset is a configuration
error; only `max_steps` set gives horizon `max_steps`; only `max_epochs`
set gives `max_epochs * steps_per_epoch`; both set gives the minimum of
the two; and the scheduler multiplies the learning rate by 0.1 at step
`floor(0.95 * horizon)`. -/
theorem claim_C7_horizon_cases (lr wd : ℚ) (me ms : ℤ) (spe : ℕ) :
    (me < 0 → ms < 0 →
      configure_optimizers lr wd me ms spe =
        Except.error "A finite number of steps or epochs must be defined") ∧
    (me < 0 → 0 ≤ ms →
      configure_optimizers lr wd me ms spe =
        Except.ok (⟨lr, wd⟩, ⟨⌊(95 / 100 : ℚ) * (ms : ℚ)⌋, 1 / 10⟩)) ∧
    (0 ≤ me → ms < 0 →
      configure_optimizers lr wd me ms spe =
        Except.ok
          (⟨lr, wd⟩, ⟨⌊(95 / 100 : ℚ) * ((me * (spe : ℤ) : ℤ) : ℚ)⌋, 1 / 10⟩)) ∧
    (0 ≤ me → 0 ≤ ms →
      configure_optimizers lr wd me ms spe =
        Except.ok
          (⟨lr, wd⟩,
            ⟨⌊(95 / 100 : ℚ) * ((min ms (me * (spe : ℤ)) : ℤ) : ℚ)⌋, 1 / 10⟩)) := by
  have hpyInt : ∀ z : ℤ, 0 ≤ z → pyInt ((95 / 100 : ℚ) * (z : ℚ)) =
      ⌊(95 / 100 : ℚ) * (z : ℚ)⌋ := by
    intro z hz
    have : (0 : ℚ) ≤ (95 / 100 : ℚ) * (z : ℚ) := by positivity
    simp [pyInt, this]
  refine ⟨?_, ?_, ?_, ?_⟩
  · intro h1 h2
    simp [configure_optimizers, h1, h2]
  · intro h1 h2
    have hcond : ¬ (me < 0 ∧ ms < 0) := fun hc => absurd hc.2 (not_lt.mpr h2)
    simp only [configure_optimizers, if_neg hcond, if_pos h1, hpyInt ms h2]
  · intro h1 h2
    have h1x : ¬ me < 0 := not_lt.mpr h1
    have hcond : ¬ (me < 0 ∧ ms < 0) := fun hc => absurd hc.1 h1x
    simp only [configure_optimizers, if_neg hcond, if_neg h1x, if_pos h2,
      hpyInt _ (mul_nonneg h1 (Int.natCast_nonneg spe))]
  · intro h1 h2
    have h1x : ¬ me < 0 := not_lt.mpr h1
    have h2x : ¬ ms < 0 := not_lt.mpr h2
    have hcond : ¬ (me < 0 ∧ ms < 0) := fun hc => absurd hc.1 h1x
    simp only [configure_optimizers, if_neg hcond, if_neg h1x, if_neg h2x,
      hpyInt _ (le_min h2 (mul_nonneg h1 (Int.natCast_nonneg spe)))]

/-- Witness for claim C7 on the four configurations of the specification:
`(max_epochs, max_steps, steps_per_epoch)` equal to `(-1, -1, 5)`,
`(10, -1, 5)` (horizon 50, decay step 47), `(-1, 100, -)` (horizon 100) and
`(10, 40, 5)` (horizon `min(40, 50) = 40`, decay step 38). -/
theorem claim_C7_horizon_cases_witness :
    configure_optimizers 1 2 (-1) (-1) 5 =
        Except.error "A finite number of steps or epochs must be defined" ∧
      configure_optimizers 1 2 10 (-1) 5 = Except.ok (⟨1, 2⟩, ⟨47, 1 / 10⟩) ∧
      configure_optimizers 1 2 (-1) 100 5 = Except.ok (⟨1, 2⟩, ⟨95, 1 / 10⟩) ∧
      configure_optimizers 1 2 10 40 5 = Except.ok (⟨1, 2⟩, ⟨38, 1 / 10⟩) := by
  obtain ⟨h1, h2, h3, h4⟩ := claim_C7_horizon_cases 1 2 10 40 5
  refine ⟨?_, ?_, ?_, ?_⟩
  · exact (claim_C7_horizon_cases 1 2 (-1) (-1) 5).1 (by norm_num) (by norm_num)
  · rw [(claim_C7_horizon_cases 1 2 10 (-1) 5).2.2.1 (by norm_num) (by norm_num)]
    norm_num
  · rw [(claim_C7_horizon_cases 1 2 (-1) 100 5).2.1 (by norm_num) (by norm_num)]
    norm_num
  · rw [h4 (by norm_num) (by norm_num)]
    norm_num

/-- Claim C6: the training-start hook recomputes and writes the mean/std
state exactly when it is unset (a call on already-set state performs zero
recomputation and leaves the state unchanged), while the validation-start
hook always recomputes and overwrites the quantile state. -/
theorem claim_C6_hook_idempotence (stats : TeacherStats) (q : QuantileResults)
    (s : NormalizationState) :
    (is_set_mean_std s = true → on_train_start stats s = (s, false)) ∧
    (is_set_mean_std s = false →
      on_train_start stats s =
        ({ s with
            channel_mean := some stats.mean
            channel_std := some stats.std }, true)) ∧
    on_validation_start q s =
      ({ s with
          qa_st := some q.qa_st
          qb_st := some q.qb_st
          qa_ae := some q.qa_ae
          qb_ae := some q.qb_ae }, true) := by
  refine ⟨?_, ?_, rfl⟩
  · intro h
    simp [on_train_start, h]
  · intro h
    simp [on_train_start, h]

/-- Witness for claim C6: a fully calibrated state is left untouched by a
second training-start call, an uncalibrated state is written to, and the
validation-start hook always runs. -/
theorem claim_C6_hook_idempotence_witness :
    is_set_mean_std
        ⟨some ⟨(1, 1, 1, 1), [0]⟩, some ⟨(1, 1, 1, 1), [SqrtResult.sqrtOf 0]⟩,
          none, none, none, none⟩ = true ∧
      on_train_start ⟨⟨(1, 1, 1, 1), [0]⟩, ⟨(1, 1, 1, 1), [SqrtResult.sqrtOf 0]⟩⟩
          ⟨some ⟨(1, 1, 1, 1), [0]⟩, some ⟨(1, 1, 1, 1), [SqrtResult.sqrtOf 0]⟩,
            none, none, none, none⟩ =
        (⟨some ⟨(1, 1, 1, 1), [0]⟩, some ⟨(1, 1, 1, 1), [SqrtResult.sqrtOf 0]⟩,
          none, none, none, none⟩, false) ∧
      is_set_mean_std ⟨none, none, none, none, none, none⟩ = false ∧
      on_train_start ⟨⟨(1, 1, 1, 1), [0]⟩, ⟨(1, 1, 1, 1), [SqrtResult.sqrtOf 0]⟩⟩
          ⟨none, none, none, none, none, none⟩ =
        (⟨some ⟨(1, 1, 1, 1), [0]⟩, some ⟨(1, 1, 1, 1), [SqrtResult.sqrtOf 0]⟩,
          none, none, none, none⟩, true) ∧
      on_validation_start ⟨1, 2, 3, 4⟩ ⟨none, none, none, none, none, none⟩ =
        (⟨none, none, some 1, some 3, some 2, some 4⟩, true) := by
  have hset : is_set_mean_std
      ⟨some ⟨(1, 1, 1, 1), [0]⟩, some ⟨(1, 1, 1, 1), [SqrtResult.sqrtOf 0]⟩,
        none, none, none, none⟩ = true := rfl
  have hunset : is_set_mean_std ⟨none, none, none, none, none, none⟩ = false := rfl
  refine ⟨hset, ?_, hunset, ?_, ?_⟩
  · exact (claim_C6_hook_idempotence
      ⟨⟨(1, 1, 1, 1), [0]⟩, ⟨(1, 1, 1, 1), [SqrtResult.sqrtOf 0]⟩⟩ ⟨1, 2, 3, 4⟩
      ⟨some ⟨(1, 1, 1, 1), [0]⟩, some ⟨(1, 1, 1, 1), [SqrtResult.sqrtOf 0]⟩,
        none, none, none, none⟩).1 hset
  · exact (claim_C6_hook_idempotence
      ⟨⟨(1, 1, 1, 1), [0]⟩, ⟨(1, 1, 1, 1), [SqrtResult.sqrtOf 0]⟩⟩ ⟨1, 2, 3, 4⟩
      ⟨none, none, none, none, none, none⟩).2.1 hunset
  · exact (claim_C6_hook_idempotence
      ⟨⟨(1, 1, 1, 1), [0]⟩, ⟨(1, 1, 1, 1), [SqrtResult.sqrtOf 0]⟩⟩ ⟨1, 2, 3, 4⟩
      ⟨none, none, none, none, none, none⟩).2.2

/-- Counterexample to claim C9: starting from the fully unset state (which
satisfies the all-or-nothing invariant), the training-start hook produces a
state with mean/std set but all four quantiles unset — an operation of the
module does leave the state partially set. -/
theorem claim_C9_counterexample :
    allOrNothing ⟨none, none, none, none, none, none⟩ ∧
      ¬ allOrNothing
        (on_train_start
            ⟨⟨(1, 1, 1, 1), [0]⟩, ⟨(1, 1, 1, 1), [SqrtResult.sqrtOf 0]⟩⟩
            ⟨none, none, none, none, none, none⟩).1 := by
  constructor
  · exact Or.inr ⟨rfl, rfl, rfl, rfl, rfl, rfl⟩
  · simp [allOrNothing, on_train_start, is_set_mean_std]

/-- Claim C9 as amended: the state is set group-wise, not all-or-nothing —
`channel_mean`/`channel_std` are always set or unset together and the four
quantile scalars are always set or unset together, and both hooks preserve
these two group invariants; but the groups are written independently, so
between the training-start and validation-start hooks the state is
partially set (mean/std set, quantiles unset). -/
theorem claim_C9_amended (stats : TeacherStats) (q : QuantileResults)
    (s : NormalizationState) (hm : meanStdTogether s)
    (hq : quantilesTogether s) :
    (meanStdTogether (on_train_start stats s).1 ∧
        quantilesTogether (on_train_start stats s).1) ∧
      (meanStdTogether (on_validation_start q s).1 ∧
        quantilesTogether (on_validation_start q s).1) := by
  unfold on_train_start on_validation_start
  by_cases h : is_set_mean_std s
  · simp only [h, if_true, if_pos]
    exact ⟨⟨hm, hq⟩, ⟨hm, by simp [quantilesTogether]⟩⟩
  · simp only [eq_self_iff_true, h, if_false, Bool.false_eq_true]
    exact ⟨⟨by simp [meanStdTogether], hq⟩, ⟨hm, by simp [quantilesTogether]⟩⟩

/-- Witness for the amended claim C9 at the fully unset state. -/
theorem claim_C9_amended_witness :
    meanStdTogether ⟨none, none, none, none, none, none⟩ ∧
      quantilesTogether ⟨none, none, none, none, none, none⟩ ∧
      meanStdTogether
        (on_train_start
            ⟨⟨(1, 1, 1, 1), [0]⟩, ⟨(1, 1, 1, 1), [SqrtResult.sqrtOf 0]⟩⟩
            ⟨none, none, none, none, none, none⟩).1 ∧
      quantilesTogether
        (on_train_start
            ⟨⟨(1, 1, 1, 1), [0]⟩, ⟨(1, 1, 1, 1), [SqrtResult.sqrtOf 0]⟩⟩
            ⟨none, none, none, none, none, none⟩).1 := by
  have hm : meanStdTogether ⟨none, none, none, none, none, none⟩ := rfl
  have hq : quantilesTogether ⟨none, none, none, none, none, none⟩ :=
    ⟨rfl, rfl, rfl⟩
  obtain ⟨⟨h1, h2⟩, _⟩ := claim_C9_amended
    ⟨⟨(1, 1, 1, 1), [0]⟩, ⟨(1, 1, 1, 1), [SqrtResult.sqrtOf 0]⟩⟩ ⟨1, 2, 3, 4⟩
    ⟨none, none, none, none, none, none⟩ hm hq
  exact ⟨hm, hq, h1, h2⟩

/-- Claim C4: `map_norm_quantiles` computes its four quantiles only from the
anomaly maps of samples with label 0 — the result on any dataset equals the
result on the dataset restricted to its label-0 samples, so the maps of
anomalous samples, however extreme, never influence it. -/
theorem claim_C4_only_good_samples {ι : Type} (pick : ℕ → List ℕ)
    (model : ι → List ℚ × List ℚ) (batches : List (List (ℤ × ι))) :
    map_norm_quantiles pick model batches =
      map_norm_quantiles pick model
        [batches.flatten.filter (fun p => p.1 == 0)] := by
  simp only [map_norm_quantiles, List.flatten_cons, List.flatten_nil,
    List.append_nil, List.filter_filter]
  simp only [Bool.and_self]

/-- Claim C10: when no sample of the validation data has label 0 (all
anomalous, or no samples at all), the collected map lists stay empty and
`map_norm_quantiles` fails (`torch.cat` on an empty list raises) instead of
returning quantiles. -/
theorem claim_C10_no_good_samples_raises {ι : Type} (pick : ℕ → List ℕ)
    (model : ι → List ℚ × List ℚ) (batches : List (List (ℤ × ι)))
    (h : ∀ p ∈ batches.flatten, p.1 ≠ (0 : ℤ)) :
    map_norm_quantiles pick model batches = none := by
  have hfil : batches.flatten.filter (fun p => p.1 == 0) = [] := by
    rw [List.filter_eq_nil_iff]
    intro p hp
    simpa using h p hp
  unfold map_norm_quantiles
  rw [hfil]
  rfl

/-- Witness for claim C10: a single batch holding one anomalous sample
(label 1). -/
theorem claim_C10_no_good_samples_raises_witness :
    (∀ p ∈ ([[((1 : ℤ), ())]] : List (List (ℤ × Unit))).flatten,
        p.1 ≠ (0 : ℤ)) ∧
      map_norm_quantiles (fun n => List.range n) (fun _ => ([3], [4]))
        ([[((1 : ℤ), ())]] : List (List (ℤ × Unit))) = none := by
  have h : ∀ p ∈ ([[((1 : ℤ), ())]] : List (List (ℤ × Unit))).flatten,
      p.1 ≠ (0 : ℤ) := by decide
  exact ⟨h,
    claim_C10_no_good_samples_raises (fun n => List.range n)
      (fun _ => ([3], [4])) [[((1 : ℤ), ())]] h⟩

/-- Claim C5: in `_get_quantiles_of_maps`, when the total flattened element
count is at most 16,777,216 the subsampling is a no-op and the quantiles
are computed over every element (in particular the random source is
irrelevant); when the count exceeds 16,777,216 the quantiles are computed
over the subsample selected by the seedable random source, of exactly
16,777,216 elements (granted the source yields an index order of the full
length). -/
theorem claim_C5_subsampling_policy (pick : ℕ → List ℕ)
    (maps : List (List ℚ)) :
    (maps.flatten.length ≤ subsampleCeiling →
      reduce_tensor_elems pick maps.flatten = maps.flatten ∧
        ∀ pick2, get_quantiles_of_maps pick maps =
          get_quantiles_of_maps pick2 maps) ∧
      (subsampleCeiling < maps.flatten.length →
        reduce_tensor_elems pick maps.flatten =
          ((pick maps.flatten.length).take subsampleCeiling).map
            (fun i => maps.flatten.getD i 0) ∧
          ((pick maps.flatten.length).length = maps.flatten.length →
            (reduce_tensor_elems pick maps.flatten).length =
              subsampleCeiling)) := by
  constructor
  · intro h
    have hred : ∀ p : ℕ → List ℕ,
        reduce_tensor_elems p maps.flatten = maps.flatten := by
      intro p
      unfold reduce_tensor_elems
      rw [if_neg (not_lt.mpr h)]
    refine ⟨hred pick, ?_⟩
    intro pick2
    unfold get_quantiles_of_maps
    cases maps with
    | nil => rfl
    | cons m ms => rw [hred pick, hred pick2]
  · intro h
    have hred : reduce_tensor_elems pick maps.flatten =
        ((pick maps.flatten.length).take subsampleCeiling).map
          (fun i => maps.flatten.getD i 0) := by
      unfold reduce_tensor_elems
      rw [if_pos h]
    refine ⟨hred, ?_⟩
    intro hlen
    rw [hred, List.length_map, List.length_take, hlen]
    exact Nat.min_eq_left (le_of_lt h)

/-- Witness for claim C5: below the ceiling (three elements) subsampling is
a no-op; above the ceiling (16,777,217 elements) the subsample has exactly
16,777,216 elements. -/
theorem claim_C5_subsampling_policy_witness :
    ([[(1 : ℚ), 2, 3]] : List (List ℚ)).flatten.length ≤ subsampleCeiling ∧
      reduce_tensor_elems (fun n => List.range n)
          ([[(1 : ℚ), 2, 3]] : List (List ℚ)).flatten =
        ([[(1 : ℚ), 2, 3]] : List (List ℚ)).flatten ∧
      subsampleCeiling <
        ([List.replicate 16777217 (0 : ℚ)] : List (List ℚ)).flatten.length ∧
      (reduce_tensor_elems (fun n => List.range n)
          ([List.replicate 16777217 (0 : ℚ)] : List (List ℚ)).flatten).length =
        subsampleCeiling := by
  have hsmall : ([[(1 : ℚ), 2, 3]] : List (List ℚ)).flatten.length ≤
      subsampleCeiling := by
    rw [List.flatten_cons, List.flatten_nil, List.append_nil, subsampleCeiling]
    norm_num
  have hbig : subsampleCeiling <
      ([List.replicate 16777217 (0 : ℚ)] : List (List ℚ)).flatten.length := by
    rw [List.flatten_cons, List.flatten_nil, List.append_nil,
      List.length_replicate, subsampleCeiling]
    norm_num
  refine ⟨hsmall,
    ((claim_C5_subsampling_policy (fun n => List.range n) [[(1 : ℚ), 2, 3]]).1
        hsmall).1,
    hbig, ?_⟩
  exact ((claim_C5_subsampling_policy (fun n => List.range n)
      [List.replicate 16777217 (0 : ℚ)]).2 hbig).2 (List.length_range _)

/-- Claim C8: for a non-empty auxiliary dataset iterated with batch size 1
and a shuffle that keeps the dataset's length, every call to the
training-step batch fetch returns a batch (`some`), whatever the iterator
state — in particular the call after exhaustion — and the call made right
after the current iterator's batches are used up returns the first batch of
a freshly built, reshuffled iterator. -/
theorem claim_C8_cycler_never_exhausts {β : Type} (shuffle : List β → List β)
    (ds init : List β) (hds : ds ≠ [])
    (hlen : ∀ l : List β, (shuffle l).length = l.length) :
    (∀ k, (runCycler shuffle ⟨ds, init⟩ k).isSome = true) ∧
      runCycler shuffle ⟨ds, init⟩ init.length = nextBatch shuffle ⟨ds, []⟩ := by
  have hshuf : shuffle ds ≠ [] := by
    intro hcon
    apply hds
    have := hlen ds
    rw [hcon] at this
    exact List.eq_nil_of_length_eq_zero this.symm
  have hnext : ∀ it : List β, ∃ b rest,
      nextBatch shuffle ⟨ds, it⟩ = some (b, ⟨ds, rest⟩) := by
    intro it
    cases it with
    | cons b rest => exact ⟨b, rest, rfl⟩
    | nil =>
      cases hsd : shuffle ds with
      | nil => exact absurd hsd hshuf
      | cons b rest =>
        refine ⟨b, rest, ?_⟩
        unfold nextBatch
        rw [hsd]
  constructor
  · intro k
    induction k generalizing init with
    | zero =>
      obtain ⟨b, rest, hb⟩ := hnext init
      rw [runCycler, hb]
      rfl
    | succ k ih =>
      obtain ⟨b, rest, hb⟩ := hnext init
      rw [runCycler, hb]
      exact ih rest
  · induction init with
    | nil => rfl
    | cons b rest ih =>
      show runCycler shuffle ⟨ds, b :: rest⟩ (rest.length + 1) = _
      rw [runCycler]
      exact ih

/-- Witness for claim C8: dataset of size 1, identity shuffle; the second
call (the one after exhaustion) still yields a batch. -/
theorem claim_C8_cycler_never_exhausts_witness :
    ([true] : List Bool) ≠ [] ∧
      (∀ l : List Bool, ((fun x => x) l).length = l.length) ∧
      (runCycler (fun x => x) ⟨[true], [true]⟩ 1).isSome = true := by
  have hds : ([true] : List Bool) ≠ [] := by decide
  have hlen : ∀ l : List Bool, ((fun x => x) l).length = l.length :=
    fun l => rfl
  exact ⟨hds, hlen,
    (claim_C8_cycler_never_exhausts (fun x => x) [true] [true] hds hlen).1 1⟩

/-! ### Helper lemmas for the streaming channel statistics -/

theorem map_eq_range_map {α β : Type} (d : α) (h : α → β) (l : List α) :
    l.map h = (List.range l.length).map (fun c => h (l.getD c d)) := by
  induction l with
  | nil => rfl
  | cons a l ih =>
    rw [List.length_cons, List.range_succ_eq_map, List.map_cons, List.map_cons,
      List.map_map]
    simp only [List.getD_cons_zero, Function.comp_def, List.getD_cons_succ]
    rw [ih]

theorem replicate_eq_range_map {α : Type} (C : ℕ) (x : α) :
    List.replicate C x = (List.range C).map (fun _ => x) := by
  rw [List.map_const', List.length_range]

theorem zipWith_range_map {α β γ : Type} (C : ℕ) (op : α → β → γ)
    (f : ℕ → α) (g : ℕ → β) :
    List.zipWith op ((List.range C).map f) ((List.range C).map g) =
      (List.range C).map (fun c => op (f c) (g c)) := by
  rw [List.zipWith_map, List.zipWith_same]

theorem totalCount_cons (b : Activation) (bs : List Activation) :
    totalCount (b :: bs) = numel0 b + totalCount bs := by
  simp [totalCount]

theorem channelPixels_cons (b : Activation) (bs : List Activation) (c : ℕ) :
    channelPixels (b :: bs) c = b.channels.getD c [] ++ channelPixels bs c := by
  simp [channelPixels]

theorem updateAcc_range (C N : ℕ) (f g : ℕ → ℚ) (b : Activation)
    (hb : b.channels.length = C) :
    updateAcc
        ⟨List.replicate C N, (List.range C).map f, (List.range C).map g⟩ b =
      ⟨List.replicate C (N + numel0 b),
        (List.range C).map (fun c => f c + (b.channels.getD c []).sum),
        (List.range C).map
          (fun c => g c + ((b.channels.getD c []).map (fun x => x ^ 2)).sum)⟩ := by
  unfold updateAcc
  refine congrArg₂ (fun u v => ChanAcc.mk u v.1 v.2) ?_
    (congrArg₂ Prod.mk ?_ ?_)
  · rw [List.map_replicate]
  · rw [map_eq_range_map ([] : List ℚ) List.sum b.channels, hb,
      zipWith_range_map]
  · rw [map_eq_range_map ([] : List ℚ)
      (fun ch => (ch.map (fun x => x ^ 2)).sum) b.channels, hb,
      zipWith_range_map]

theorem foldl_updateAcc (C : ℕ) (bs : List Activation) :
    ∀ (N : ℕ) (f g : ℕ → ℚ), (∀ b ∈ bs, b.channels.length = C) →
      List.foldl updateAcc
          ⟨List.replicate C N, (List.range C).map f, (List.range C).map g⟩ bs =
        ⟨List.replicate C (N + totalCount bs),
          (List.range C).map (fun c => f c + (channelPixels bs c).sum),
          (List.range C).map
            (fun c =>
              g c + ((channelPixels bs c).map (fun x => x ^ 2)).sum)⟩ := by
  induction bs with
  | nil =>
    intro N f g hC
    simp [totalCount, channelPixels]
  | cons b bs ih =>
    intro N f g hC
    have hb : b.channels.length = C := hC b (List.mem_cons_self b bs)
    rw [List.foldl_cons, updateAcc_range C N f g b hb,
      ih (N + numel0 b) _ _ (fun x hx => hC x (List.mem_cons_of_mem b hx))]
    refine congrArg₂ (fun u v => ChanAcc.mk u v.1 v.2) ?_
      (congrArg₂ Prod.mk ?_ ?_)
    · rw [totalCount_cons, Nat.add_assoc]
    · apply List.map_congr_left
      intro c _
      rw [channelPixels_cons, List.sum_append, add_assoc]
    · apply List.map_congr_left
      intro c _
      rw [channelPixels_cons, List.map_append, List.sum_append, add_assoc]

theorem foldAcc_some (bs : List Activation) :
    ∀ a : ChanAcc,
      List.foldl
          (fun acc y =>
            match acc with
            | none => some (updateAcc (initAcc y.channels.length) y)
            | some a2 => some (updateAcc a2 y))
          (some a) bs =
        some (List.foldl updateAcc a bs) := by
  induction bs with
  | nil => intro a; rfl
  | cons b bs ih =>
    intro a
    rw [List.foldl_cons, List.foldl_cons]
    exact ih (updateAcc a b)

theorem foldAcc_spec (b : Activation) (bs : List Activation) (C : ℕ)
    (hC : ∀ x ∈ b :: bs, x.channels.length = C) :
    foldAcc (b :: bs) =
      some
        ⟨List.replicate C (totalCount (b :: bs)),
          (List.range C).map (fun c => (channelPixels (b :: bs) c).sum),
          (List.range C).map
            (fun c =>
              ((channelPixels (b :: bs) c).map (fun x => x ^ 2)).sum)⟩ := by
  have hb : b.channels.length = C := hC b (List.mem_cons_self b bs)
  have hstep : foldAcc (b :: bs) =
      some (List.foldl updateAcc (initAcc C) (b :: bs)) := by
    unfold foldAcc
    rw [List.foldl_cons, foldAcc_some bs (updateAcc (initAcc b.channels.length) b),
      hb]
    rfl
  have hinit : initAcc C =
      ⟨List.replicate C 0, (List.range C).map (fun _ => (0 : ℚ)),
        (List.range C).map (fun _ => (0 : ℚ))⟩ := by
    unfold initAcc
    rw [replicate_eq_range_map C (0 : ℚ)]
  rw [hstep, hinit, foldl_updateAcc C (b :: bs) 0 (fun _ => 0) (fun _ => 0) hC]
  simp only [Nat.zero_add, zero_add]

theorem channelPixels_length (bts : List Activation) (C c : ℕ) (hc : c < C)
    (hC : ∀ b ∈ bts, b.channels.length = C)
    (hrect : ∀ b ∈ bts, ∀ ch ∈ b.channels, ch.length = numel0 b) :
    (channelPixels bts c).length = totalCount bts := by
  induction bts with
  | nil => rfl
  | cons b bs ih =>
    rw [channelPixels_cons, List.length_append, totalCount_cons,
      ih (fun x hx => hC x (List.mem_cons_of_mem b hx))
        (fun x hx => hrect x (List.mem_cons_of_mem b hx))]
    have hb : b.channels.length = C := hC b (List.mem_cons_self b bs)
    have hcb : c < b.channels.length := hb ▸ hc
    rw [List.getD_eq_getElem _ _ hcb]
    exact congrArg (· + totalCount bs)
      (hrect b (List.mem_cons_self b bs) _ (List.getElem_mem hcb))

theorem sum_sq_dev (xs : List ℚ) (m : ℚ) :
    (xs.map (fun x => (x - m) ^ 2)).sum =
      (xs.map (fun x => x ^ 2)).sum - 2 * m * xs.sum +
        (xs.length : ℚ) * m ^ 2 := by
  induction xs with
  | nil => simp
  | cons a l ih =>
    simp only [List.map_cons, List.sum_cons, List.length_cons, ih]
    push_cast
    ring

theorem variance_identity (xs : List ℚ) (h : xs.length ≠ 0) :
    (xs.map (fun x => x ^ 2)).sum / (xs.length : ℚ) - popMean xs ^ 2 =
      popVar xs := by
  have hl : ((xs.length : ℚ)) ≠ 0 := Nat.cast_ne_zero.mpr h
  unfold popVar popMean
  rw [sum_sq_dev]
  field_simp
  ring

theorem popVar_nonneg (xs : List ℚ) : 0 ≤ popVar xs := by
  unfold popVar
  apply div_nonneg
  · apply List.sum_nonneg
    intro x hx
    obtain ⟨a, _, rfl⟩ := List.mem_map.mp hx
    positivity
  · exact Nat.cast_nonneg _

theorem mean_range (C N : ℕ) (f : ℕ → ℚ) :
    List.zipWith (fun (s : ℚ) (k : ℕ) => s / (k : ℚ)) ((List.range C).map f)
      (List.replicate C N) = (List.range C).map (fun c => f c / (N : ℚ)) := by
  rw [replicate_eq_range_map, zipWith_range_map]

theorem finalize_std_range (C N : ℕ) (sq m : ℕ → ℚ) :
    finalize_std ((List.range C).map sq) (List.replicate C N)
      ((List.range C).map m) =
      (List.range C).map (fun c => torchSqrt (sq c / (N : ℚ) - m c ^ 2)) := by
  unfold finalize_std
  rw [replicate_eq_range_map, List.zip_map', zipWith_range_map, List.map_map]
  rfl

/-- Claim C1: on every non-empty, well-formed stream of teacher activation
batches (uniform channel count, rectangular channels, non-empty pixel
slices), `teacher_channel_mean_std` returns, per channel, exactly the
population mean and the population standard deviation (the square root of
the population variance) of all pixels across all batches, with the channel
axis preserved and singleton batch/spatial axes (shape `(1, C, 1, 1)`). -/
theorem claim_C1_streaming_mean_std (batches : List Activation) (C : ℕ)
    (hne : batches ≠ [])
    (hC : ∀ b ∈ batches, b.channels.length = C)
    (hrect : ∀ b ∈ batches, ∀ ch ∈ b.channels, ch.length = numel0 b)
    (hpos : ∀ b ∈ batches, 0 < numel0 b) :
    teacher_channel_mean_std batches =
      some
        { mean := ⟨(1, C, 1, 1),
            (List.range C).map (fun c => popMean (channelPixels batches c))⟩,
          std := ⟨(1, C, 1, 1),
            (List.range C).map
              (fun c =>
                SqrtResult.sqrtOf (popVar (channelPixels batches c)))⟩ } := by
  obtain ⟨b, bs, rfl⟩ := List.exists_cons_of_ne_nil hne
  have hN : 0 < totalCount (b :: bs) := by
    rw [totalCount_cons]
    exact Nat.lt_of_lt_of_le (hpos b (List.mem_cons_self b bs))
      (Nat.le_add_right _ _)
  have hlen : ∀ c, c < C →
      (channelPixels (b :: bs) c).length = totalCount (b :: bs) :=
    fun c hc => channelPixels_length _ C c hc hC hrect
  have hmean : (List.range C).map
        (fun c => (channelPixels (b :: bs) c).sum / (totalCount (b :: bs) : ℚ)) =
      (List.range C).map (fun c => popMean (channelPixels (b :: bs) c)) := by
    apply List.map_congr_left
    intro c hc
    rw [popMean, hlen c (List.mem_range.mp hc)]
  have hstd : (List.range C).map
        (fun c => torchSqrt
          (((channelPixels (b :: bs) c).map (fun x => x ^ 2)).sum /
              (totalCount (b :: bs) : ℚ) -
            popMean (channelPixels (b :: bs) c) ^ 2)) =
      (List.range C).map
        (fun c => SqrtResult.sqrtOf (popVar (channelPixels (b :: bs) c))) := by
    apply List.map_congr_left
    intro c hc
    have hc2 := List.mem_range.mp hc
    have hL : (channelPixels (b :: bs) c).length ≠ 0 := by
      rw [hlen c hc2]
      omega
    have hvar : ((channelPixels (b :: bs) c).map (fun x => x ^ 2)).sum /
          (totalCount (b :: bs) : ℚ) -
        popMean (channelPixels (b :: bs) c) ^ 2 =
        popVar (channelPixels (b :: bs) c) := by
      rw [← hlen c hc2]
      exact variance_identity _ hL
    rw [hvar, torchSqrt, if_neg (not_lt.mpr (popVar_nonneg _))]
  unfold teacher_channel_mean_std
  rw [foldAcc_spec b bs C hC]
  simp only [mean_range, List.length_map, List.length_range]
  rw [hmean, finalize_std_range]
  simp only [List.length_map, List.length_range]
  rw [show (List.range C).map
      (fun c => torchSqrt
        (((channelPixels (b :: bs) c).map (fun x => x ^ 2)).sum /
            (totalCount (b :: bs) : ℚ) -
          popMean (channelPixels (b :: bs) c) ^ 2)) = _ from hstd]

/-- Witness for claim C1: one batch with two channels, channel pixels
`[1, 3]` and `[2, 2]`; means 2 and 2, population variances 1 and 0. -/
theorem claim_C1_streaming_mean_std_witness :
    (([⟨[[1, 3], [2, 2]]⟩] : List Activation) ≠ []) ∧
      (∀ b ∈ ([⟨[[1, 3], [2, 2]]⟩] : List Activation),
        b.channels.length = 2) ∧
      (∀ b ∈ ([⟨[[1, 3], [2, 2]]⟩] : List Activation),
        ∀ ch ∈ b.channels, ch.length = numel0 b) ∧
      (∀ b ∈ ([⟨[[1, 3], [2, 2]]⟩] : List Activation), 0 < numel0 b) ∧
      teacher_channel_mean_std [⟨[[1, 3], [2, 2]]⟩] =
        some
          { mean := ⟨(1, 2, 1, 1),
              (List.range 2).map
                (fun c => popMean (channelPixels [⟨[[1, 3], [2, 2]]⟩] c))⟩,
            std := ⟨(1, 2, 1, 1),
              (List.range 2).map
                (fun c =>
                  SqrtResult.sqrtOf
                    (popVar (channelPixels [⟨[[1, 3], [2, 2]]⟩] c)))⟩ } := by
  have h1 : ([⟨[[1, 3], [2, 2]]⟩] : List Activation) ≠ [] := by
    decide
  have h2 : ∀ b ∈ ([⟨[[1, 3], [2, 2]]⟩] : List Activation),
      b.channels.length = 2 := by
    decide
  have h3 : ∀ b ∈ ([⟨[[1, 3], [2, 2]]⟩] : List Activation),
      ∀ ch ∈ b.channels, ch.length = numel0 b := by
    decide
  have h4 : ∀ b ∈ ([⟨[[1, 3], [2, 2]]⟩] : List Activation), 0 < numel0 b := by
    decide
  exact ⟨h1, h2, h3, h4,
    claim_C1_streaming_mean_std [⟨[[1, 3], [2, 2]]⟩] 2 h1 h2 h3 h4⟩

end EfficientAd
